import Mathlib

/-!
# Verification of the voyage-planner repository

Shallow embedding of the OSV route simulator (`src/Dummy_Data.py`,
`src/app.py`) and of the land-aware route planner that the specification
describes (§4.1–§4.4).  Python floats are modelled by exact arithmetic:
rationals where the source only adds, multiplies and divides, reals where
the source uses trigonometry (`haversine_km`, `onsite_movement_safe`).
Python's `random.uniform` / `random.randint` / `random.choices` draws are
modelled as explicit streams indexed by the order in which the source
consumes them.  A Python exception (`ZeroDivisionError`) is modelled by
`Option`: `none` is a raised error.
-/

namespace Voyage

/-- A geographic coordinate pair `(latitude, longitude)`, in degrees. -/
abbrev Point := ℚ × ℚ

/-- Fallible rational division, modelling Python's true division, which
raises `ZeroDivisionError` on a zero denominator. -/
def qdiv (a b : ℚ) : Option ℚ :=
  if b = 0 then none else some (a / b)

/-- Fallible natural division, modelling Python's floor division `//`,
which raises `ZeroDivisionError` on a zero denominator. -/
def ndiv (a b : ℕ) : Option ℕ :=
  if b = 0 then none else some (a / b)

/-- Option-valued map over a list: the loop-with-append idiom of the
source, aborting at the first raised error. -/
def mapO (f : α → Option β) : List α → Option (List β)
  | [] => some []
  | a :: l => do
      let b ← f a
      let r ← mapO f l
      pure (b :: r)

/-- Model of `interpolate_leg(start, end, steps)` from `src/Dummy_Data.py` lines
49–56 (identical in `src/app.py` lines 45–52).  For each `i` in
`range(steps)` it computes `frac = i / (steps - 1)` — raising
`ZeroDivisionError` when `steps == 1` — and emits the linear interpolation
plus a `random_drift()` on each component.  `drift k` is the value of the
`k`-th `random_drift()` call (latitude first, then longitude, per step). -/
def interpolate_leg (s e : Point) (steps : ℕ) (drift : ℕ → ℚ) : Option (List Point) :=
  mapO (fun (i : ℕ) => do
      let frac ← qdiv (i : ℚ) ((steps - 1 : ℕ) : ℚ)
      pure (s.1 + (e.1 - s.1) * frac + drift (2 * i),
            s.2 + (e.2 - s.2) * frac + drift (2 * i + 1)))
    (List.range steps)

/-- The per-leg loop body of `generate_transit_route`: each leg consumes
`2 * mpl` drift draws, so leg `k` reads the drift stream at offset
`2 * mpl * k`. -/
def genLegs (mpl : ℕ) (drift : ℕ → ℚ) : List (Point × Point) → ℕ → Option (List Point)
  | [], _ => some []
  | (s, e) :: rest, off => do
      let c ← interpolate_leg s e mpl (fun i => drift (off + i))
      let r ← genLegs mpl drift rest (off + 2 * mpl)
      pure (c ++ r)

/-- Model of `generate_transit_route(points, total_minutes)` from
`src/Dummy_Data.py` lines 66–74 (identical in `src/app.py` lines 62–70):
`legs = zip(points[:-1], points[1:])`, `minutes_per_leg = total_minutes //
len(legs)` (raising `ZeroDivisionError` on fewer than two points), then
each leg's `interpolate_leg` output is appended in order. -/
def generate_transit_route (points : List Point) (total_minutes : ℕ)
    (drift : ℕ → ℚ) : Option (List Point) := do
  let legs := points.zip points.tail
  let mpl ← ndiv total_minutes legs.length
  genLegs mpl drift legs 0

/-- The pair (first element, last element) of an emitted leg. -/
def legEnds (l : List Point) : Option Point × Option Point :=
  (l.head?, l.getLast?)

/-- The all-zero drift stream (every `random.uniform(-s, s)` draw is `0`). -/
def driftZero : ℕ → ℚ := fun _ => 0

/-- The all-one drift stream (every drift draw returns `1`). -/
def driftOne : ℕ → ℚ := fun _ => 1

/-- A drift stream agreeing with `driftZero` on the first four draws only. -/
def driftZeroThen5 : ℕ → ℚ := fun i => if i < 4 then 0 else 5

/-- Python's `round` on a number: round half to even (banker's rounding),
the semantics of `round(x)` for Python floats. -/
def pyRound (q : ℚ) : ℤ :=
  let f := ⌊q⌋
  let r := q - f
  if r < 1 / 2 then f
  else if 1 / 2 < r then f + 1
  else if Even f then f else f + 1

/-- Python's `round(x, n)`: round to `n` decimal places. -/
def roundTo (q : ℚ) (n : ℕ) : ℚ :=
  (pyRound (q * 10 ^ n) : ℚ) / 10 ^ n

/-- Two-digit zero-padded decimal rendering, as in `datetime.isoformat`. -/
def pad2 (n : ℕ) : String :=
  if n < 10 then "0" ++ toString n else toString n

/-- Day counts of the months of 2025 (not a leap year). -/
def monthDays : List ℕ := [31, 28, 31, 30, 31, 30, 31, 31, 30, 31, 30, 31]

/-- Convert a zero-based day of the year to a (month, day-of-month) pair. -/
def monthDayGo : List ℕ → ℕ → ℕ → ℕ × ℕ
  | [], m, d => (m, d + 1)
  | len :: rest, m, d => if d < len then (m, d + 1) else monthDayGo rest (m + 1) (d - len)

/-- Model of `datetime.isoformat()` of the time cursor, which the source stores as a
`datetime` in 2025; here the cursor is the number of minutes since
2025-01-01T00:00:00.  Seconds are always `:00` because the cursor advances
in whole minutes from a second-less `START_TIME`. -/
def isoformat (minutes : ℕ) : String :=
  let day := minutes / 1440
  let rem := minutes % 1440
  let md := monthDayGo monthDays 1 day
  "2025-" ++ pad2 md.1 ++ "-" ++ pad2 md.2 ++ "T" ++
    pad2 (rem / 60) ++ ":" ++ pad2 (rem % 60) ++ ":00"

/-- One emitted trajectory record (one CSV row).  The `time` field models
the `datetime` value of the time cursor as minutes since
2025-01-01T00:00:00; the stored timestamp string is `Row.timestampStr`. -/
structure Row where
  time : ℕ
  vessel : String
  phase : String
  lat : ℚ
  lon : ℚ
  speed : ℚ
  course : ℤ
  heading : ℤ
  status : String
deriving DecidableEq

/-- The timestamp string stored in a row: `time_cursor.isoformat() + "Z"`. -/
def Row.timestampStr (r : Row) : String :=
  isoformat r.time ++ "Z"

/-- The `VESSEL_NAME` constant of the source configuration. -/
def VESSEL_NAME : String := "OSV_DUMMY_01"

/-- The source constant `START_TIME = datetime(2025, 1, 1, 6, 0)` as minutes since
2025-01-01T00:00:00. -/
def START_MIN : ℕ := 6 * 60

/-- Indexed loop over the coordinates of one phase: iteration `i` builds the
row for coordinate `i`, exactly one row per loop iteration. -/
def rowsGo (mk : ℕ → Point → Row) : ℕ → List Point → List Row
  | _, [] => []
  | i, c :: cs => mk i c :: rowsGo mk (i + 1) cs

/-- One transit row (`Outbound Transit` / `Return Transit` loop body):
`spd i` is the `random.uniform(8.5, 11.0)` draw, `crs i` the `bearing()`
draw and `dlt i` the `random.randint(-5, 5)` heading offset of iteration
`i`; the cursor is `t0 + i`. -/
def transitRow (phaseLabel : String) (spd : ℕ → ℚ) (crs : ℕ → ℤ) (dlt : ℕ → ℤ)
    (t0 : ℕ) (i : ℕ) (c : Point) : Row :=
  { time := t0 + i
    vessel := VESSEL_NAME
    phase := phaseLabel
    lat := roundTo c.1 5
    lon := roundTo c.2 5
    speed := roundTo (spd i) 2
    course := crs i
    heading := (crs i + dlt i) % 360
    status := "Underway" }

/-- The three on-site phase labels, indexed by the `random.choices` draw. -/
def phaseName : ℕ → String
  | 0 => "Stationary"
  | 1 => "Patrolling"
  | _ => "Worksite Transit"

/-- One on-site row: `ph i` selects the phase, `sS/sP/sW i` are the three
`random.uniform` speed draws of the speed dictionary (Python evaluates all
three), `crs i` the `bearing()` draw, `dlt i` the `randint(-3, 3)` offset. -/
def onsiteRow (ph : ℕ → ℕ) (sS sP sW : ℕ → ℚ) (crs : ℕ → ℤ) (dlt : ℕ → ℤ)
    (t0 : ℕ) (i : ℕ) (c : Point) : Row :=
  { time := t0 + i
    vessel := VESSEL_NAME
    phase := "On Site / " ++ phaseName (ph i)
    lat := roundTo c.1 5
    lon := roundTo c.2 5
    speed := roundTo (if ph i = 0 then sS i else if ph i = 1 then sP i else sW i) 2
    course := crs i
    heading := (crs i + dlt i) % 360
    status := if ph i = 0 then "Dynamic Positioning" else "Underway" }

/-- The random draws consumed by the three row-emitting loops. -/
structure GenStreams where
  spdOut : ℕ → ℚ
  crsOut : ℕ → ℤ
  dltOut : ℕ → ℤ
  ph : ℕ → ℕ
  sS : ℕ → ℚ
  sP : ℕ → ℚ
  sW : ℕ → ℚ
  crsOn : ℕ → ℤ
  dltOn : ℕ → ℤ
  spdRet : ℕ → ℚ
  crsRet : ℕ → ℤ
  dltRet : ℕ → ℤ

/-- The three row-emitting loops of the generator script (`src/Dummy_Data.py`
lines 100–170, `src/app.py` lines 91–154): outbound transit, on-site and
return transit rows appended in order, with the single time cursor starting
at `START_TIME` and advancing one minute per appended row. -/
def assembleRows (tc oc rc : List Point) (gs : GenStreams) : List Row :=
  rowsGo (transitRow "Outbound Transit" gs.spdOut gs.crsOut gs.dltOut START_MIN) 0 tc ++
  rowsGo (onsiteRow gs.ph gs.sS gs.sP gs.sW gs.crsOn gs.dltOn (START_MIN + tc.length)) 0 oc ++
  rowsGo (transitRow "Return Transit" gs.spdRet gs.crsRet gs.dltRet
    (START_MIN + tc.length + oc.length)) 0 rc

/-- An all-zero / trivial stream bundle, used to instantiate theorems on
concrete inputs. -/
def gsZero : GenStreams :=
  { spdOut := fun _ => 9, crsOut := fun _ => 10, dltOut := fun _ => 1
    ph := fun _ => 0, sS := fun _ => 0, sP := fun _ => 3, sW := fun _ => 5
    crsOn := fun _ => 20, dltOn := fun _ => 2
    spdRet := fun _ => 10, crsRet := fun _ => 30, dltRet := fun _ => 3 }

/-- The first outbound row of the concrete three-row trajectory. -/
def rowW : Row :=
  transitRow "Outbound Transit" gsZero.spdOut gsZero.crsOut gsZero.dltOut
    START_MIN 0 ((1 : ℚ), 2)

open Real in
/-- Model of `math.radians`: `radians x = x * pi / 180`. -/
noncomputable def radians (x : ℝ) : ℝ := x * π / 180

open Real in
/-- Model of `math.atan2(y, x)`: the angle of the point `(x, y)`, in `(-π, π]`, with
`atan2(0, 0) = 0`, following the C / Python library convention. -/
noncomputable def atan2 (y x : ℝ) : ℝ :=
  if 0 < x then Real.arctan (y / x)
  else if x < 0 then
    (if 0 ≤ y then Real.arctan (y / x) + π else Real.arctan (y / x) - π)
  else
    (if 0 < y then π / 2 else if y < 0 then -(π / 2) else 0)

/-- Model of `haversine_km(lat1, lon1, lat2, lon2)` from `src/Dummy_Data.py` lines
58–64 (identical in `src/app.py` lines 54–60): the haversine formula with
`R = 6371`, the Earth radius in kilometres. -/
noncomputable def haversine_km (lat1 lon1 lat2 lon2 : ℝ) : ℝ :=
  let R : ℝ := 6371
  let phi1 := radians lat1
  let phi2 := radians lat2
  let dphi := radians (lat2 - lat1)
  let dl := radians (lon2 - lon1)
  let a := Real.sin (dphi / 2) ^ 2 +
    Real.cos phi1 * Real.cos phi2 * Real.sin (dl / 2) ^ 2
  R * 2 * atan2 (Real.sqrt a) (Real.sqrt (1 - a))

/-- The candidate coordinate generated by one iteration of either
`onsite_movement_safe` loop: draw `i` of the stream is the pair
(`random.uniform(0, 2*pi)` angle, `random.uniform(5/111, 7/111)` radius). -/
noncomputable def onsitePoint (rigLat rigLon : ℝ) (st : ℕ → ℝ × ℝ) (i : ℕ) : ℝ × ℝ :=
  (rigLat + (st i).2 * Real.cos (st i).1, rigLon + (st i).2 * Real.sin (st i).1)

/-- The candidate points of `n` consecutive iterations starting at draw `i`. -/
noncomputable def onsiteCandidates (rigLat rigLon : ℝ) (st : ℕ → ℝ × ℝ) :
    ℕ → ℕ → List (ℝ × ℝ)
  | _, 0 => []
  | i, n + 1 => onsitePoint rigLat rigLon st i ::
      onsiteCandidates rigLat rigLon st (i + 1) n

open scoped Classical in
/-- The `for`-loop `onsite_movement_safe` of `src/Dummy_Data.py` lines
76–95: exactly `steps` iterations; an iteration whose candidate lies within
1 km of the rig is skipped (`continue`), so fewer than `steps` coordinates
may be returned.  `i` is the index of the next random draw. -/
noncomputable def onsiteDummyGo (rigLat rigLon : ℝ) (st : ℕ → ℝ × ℝ) :
    ℕ → ℕ → List (ℝ × ℝ)
  | _, 0 => []
  | i, k + 1 =>
      let c := onsitePoint rigLat rigLon st i
      if haversine_km c.1 c.2 rigLat rigLon < 1 then
        onsiteDummyGo rigLat rigLon st (i + 1) k
      else
        c :: onsiteDummyGo rigLat rigLon st (i + 1) k

/-- Model of `onsite_movement_safe(rig_lat, rig_lon, steps)` of `src/Dummy_Data.py`. -/
noncomputable def onsite_movement_safe_dummy (rigLat rigLon : ℝ) (steps : ℕ)
    (st : ℕ → ℝ × ℝ) : List (ℝ × ℝ) :=
  onsiteDummyGo rigLat rigLon st 0 steps

open scoped Classical in
/-- The `while`-loop `onsite_movement_safe` of `src/app.py` lines 72–84:
loops until `len(coords) == steps`, retrying rejected candidates.  The loop
has no iteration bound in the source; `fuel` bounds the modelled number of
iterations (the loop diverges when good draws run out, which the model
renders as returning the coordinates collected within `fuel` iterations). -/
noncomputable def onsiteAppGo (rigLat rigLon : ℝ) (st : ℕ → ℝ × ℝ) :
    ℕ → ℕ → ℕ → List (ℝ × ℝ)
  | 0, _, _ => []
  | _ + 1, _, 0 => []
  | fuel + 1, i, need + 1 =>
      let c := onsitePoint rigLat rigLon st i
      if haversine_km c.1 c.2 rigLat rigLon < 1 then
        onsiteAppGo rigLat rigLon st fuel (i + 1) (need + 1)
      else
        c :: onsiteAppGo rigLat rigLon st fuel (i + 1) need

/-- Model of `onsite_movement_safe(rig_lat, rig_lon, steps)` of `src/app.py`, run for
at most `fuel` loop iterations. -/
noncomputable def onsite_movement_safe_app (fuel : ℕ) (rigLat rigLon : ℝ)
    (steps : ℕ) (st : ℕ → ℝ × ℝ) : List (ℝ × ℝ) :=
  onsiteAppGo rigLat rigLon st fuel 0 steps

/-- A draw stream whose first draw is rejected at the north pole (angle
`π/2` puts the whole radius into longitude, which contributes no distance
at latitude 90) and whose later draws are accepted (angle `0` puts the
radius into latitude). -/
noncomputable def stPole : ℕ → ℝ × ℝ :=
  fun i => if i = 0 then (Real.pi / 2, 5 / 111) else (0, 5 / 111)

/-- A draw stream all of whose draws are accepted at the north pole. -/
noncomputable def stGood : ℕ → ℝ × ℝ := fun _ => (0, 5 / 111)

/-- A coordinate respects the rig's 1 km exclusion zone: its haversine
distance from the rig is at least 1 km. -/
noncomputable def farFromRig (rigLat rigLon : ℝ) (c : ℝ × ℝ) : Prop :=
  1 ≤ haversine_km c.1 c.2 rigLat rigLon

/-!
## The land-aware route planner (spec §4.1–§4.4)

The planner the specification describes (geometry predicates, water grid,
visibility graph, shortest-path solver) has no code under `src/`; the
definitions below are modelled from the spec.  Per §6 the core depends on
the land dataset only through the geometry predicates of §4.1, so the
segment predicate is taken as a parameter `crosses` (`crosses a b = true`
iff the segment from `a` to `b` intersects the interior or boundary of
some land polygon), and the §4.3 edge weight (great-circle distance in
nautical miles) as a parameter `w`.
-/

/-- Modelled from the spec: the solver's error (§4.4, §7); `NoPathFound`
is raised when start and end are not connected in the visibility graph. -/
inductive RouteError where
  | NoPathFound
deriving DecidableEq

/-- Modelled from the spec (§4.3): the neighbours of `p` in the visibility
graph over `nodes` — every distinct node whose connecting segment does not
cross land. -/
def neighbors (nodes : List Point) (crosses : Point → Point → Bool)
    (p : Point) : List Point :=
  nodes.filter (fun q => decide (q ≠ p) && !crosses p q)

/-- A frontier entry of the solver: a node, its tentative distance from the
start, and the path reaching it (most recent node first). -/
structure Entry where
  node : Point
  dist : ℚ
  path : List Point
deriving DecidableEq

/-- Extract an entry of minimum tentative distance from the frontier. -/
def pickMin : List Entry → Option (Entry × List Entry)
  | [] => none
  | e :: es =>
      match pickMin es with
      | none => some (e, [])
      | some (m, rest) =>
          if e.dist ≤ m.dist then some (e, es) else some (m, e :: rest)

/-- Modelled from the spec (§4.4): the Dijkstra loop.  Repeatedly extracts
the frontier entry of minimum distance; returns its path when it is the
goal, skips it when already settled, and otherwise relaxes its land-free
neighbours.  An exhausted frontier — and, for totality, exhausted fuel —
reports `NoPathFound`. -/
def solveGo (nodes : List Point) (crosses : Point → Point → Bool)
    (w : Point → Point → ℚ) (goal : Point) :
    ℕ → List Entry → List Point → Except RouteError (List Point)
  | 0, _, _ => .error .NoPathFound
  | fuel + 1, frontier, visited =>
      match pickMin frontier with
      | none => .error .NoPathFound
      | some (e, rest) =>
          if e.node = goal then .ok e.path.reverse
          else if e.node ∈ visited then
            solveGo nodes crosses w goal fuel rest visited
          else
            solveGo nodes crosses w goal fuel
              (rest ++ (neighbors nodes crosses e.node).map
                (fun q => ⟨q, e.dist + w e.node q, q :: e.path⟩))
              (e.node :: visited)

/-- Modelled from the spec (§4.2–§4.4): the planner's shortest-path entry
point.  The node set is start, end and the water grid points (start and end
are always included); the solver runs from the start entry with fuel
quadratic in the node count. -/
def shortest_path (gridPts : List Point) (start goal : Point)
    (crosses : Point → Point → Bool) (w : Point → Point → ℚ) :
    Except RouteError (List Point) :=
  let nodes := start :: goal :: gridPts
  solveGo nodes crosses w goal
    (nodes.length * nodes.length + nodes.length + 1)
    [⟨start, 0, [start]⟩] []

/-- Connectivity in the visibility graph: `Reach nodes crosses start p`
holds iff `p` is reachable from `start` along land-free segments between
nodes of the graph. -/
inductive Reach (nodes : List Point) (crosses : Point → Point → Bool)
    (start : Point) : Point → Prop
  | refl : Reach nodes crosses start start
  | step {p q : Point} : Reach nodes crosses start p → q ∈ nodes →
      q ≠ p → crosses p q = false → Reach nodes crosses start q

/-- A segment predicate under which no segment crosses land (open water). -/
def crossesNever : Point → Point → Bool := fun _ _ => false

/-- A segment predicate under which every segment crosses land. -/
def crossesAlways : Point → Point → Bool := fun _ _ => true

/-- A unit edge-weight function, standing in for the great-circle weight in
concrete instantiations. -/
def wOne : Point → Point → ℚ := fun _ _ => 1

/-- The segment between `a` and `b` is clear of land (does not intersect
the interior or boundary of any land polygon, §4.1). -/
def segClear (crosses : Point → Point → Bool) (a b : Point) : Prop :=
  crosses a b = false

/-- The solver invariant: a frontier entry records a node of the graph
together with a land-free path (most recent node first) from the start to
that node. -/
def EntryInv (nodes : List Point) (crosses : Point → Point → Bool)
    (start : Point) (e : Entry) : Prop :=
  e.node ∈ nodes ∧ e.path.head? = some e.node ∧ e.path.getLast? = some start ∧
  List.Chain' (fun a b => b ∈ nodes ∧ a ≠ b ∧ crosses b a = false) e.path ∧
  Reach nodes crosses start e.node

instance : DecidableEq (Except RouteError (List Point)) := fun a b =>
  match a, b with
  | .error .NoPathFound, .error .NoPathFound => isTrue rfl
  | .ok l1, .ok l2 =>
      if h : l1 = l2 then isTrue (by rw [h]) else isFalse (by simp [h])
  | .error _, .ok _ => isFalse (by simp)
  | .ok _, .error _ => isFalse (by simp)

lemma mapO_eq_map (f : α → Option β) (g : α → β) :
    ∀ l : List α, (∀ a ∈ l, f a = some (g a)) → mapO f l = some (l.map g)
  | [], _ => rfl
  | a :: l, h => by
      have ha := h a (List.mem_cons_self a l)
      have hl := mapO_eq_map f g l (fun x hx => h x (List.mem_cons_of_mem a hx))
      simp [mapO, ha, hl]

lemma mapO_congr (f f' : α → Option β) :
    ∀ l : List α, (∀ a ∈ l, f a = f' a) → mapO f l = mapO f' l
  | [], _ => rfl
  | a :: l, h => by
      have ha := h a (List.mem_cons_self a l)
      have hl := mapO_congr f f' l (fun x hx => h x (List.mem_cons_of_mem a hx))
      simp [mapO, ha, hl]

/-- With at least two steps the division `i / (steps - 1)` never raises, and
`interpolate_leg` returns the plain interpolation list. -/
lemma interpolate_leg_eq (s e : Point) (steps : ℕ) (drift : ℕ → ℚ)
    (h : 2 ≤ steps) :
    interpolate_leg s e steps drift =
      some ((List.range steps).map (fun (i : ℕ) =>
        (s.1 + (e.1 - s.1) * ((i : ℚ) / ((steps - 1 : ℕ) : ℚ)) + drift (2 * i),
         s.2 + (e.2 - s.2) * ((i : ℚ) / ((steps - 1 : ℕ) : ℚ)) + drift (2 * i + 1)))) := by
  have hden : ((steps - 1 : ℕ) : ℚ) ≠ 0 := Nat.cast_ne_zero.mpr (by omega)
  refine mapO_eq_map _ _ _ (fun i _ => ?_)
  simp [qdiv, hden]

lemma interpolate_leg_length (s e : Point) (steps : ℕ) (drift : ℕ → ℚ)
    (h : 2 ≤ steps) :
    (interpolate_leg s e steps drift).map List.length = some steps := by
  rw [interpolate_leg_eq s e steps drift h]
  simp [List.length_map, List.length_range]

/-- With at least two minutes per leg, every leg interpolates successfully and
contributes exactly `mpl` records. -/
lemma genLegs_length (mpl : ℕ) (drift : ℕ → ℚ) (h : 2 ≤ mpl) :
    ∀ (legs : List (Point × Point)) (off : ℕ),
      (genLegs mpl drift legs off).map List.length = some (legs.length * mpl)
  | [], _ => by simp [genLegs]
  | (s, e) :: rest, off => by
      have hleg := interpolate_leg_eq s e mpl (fun i => drift (off + i)) h
      have hrest := genLegs_length mpl drift h rest (off + 2 * mpl)
      cases hr : genLegs mpl drift rest (off + 2 * mpl) with
      | none => rw [hr] at hrest; simp at hrest
      | some r =>
          rw [hr] at hrest
          have hrlen : r.length = rest.length * mpl := by simpa using hrest
          simp [genLegs, hleg, hr, List.length_append, List.length_map,
            List.length_range, hrlen]
          ring

lemma genLegs_congr (mpl : ℕ) (d1 d2 : ℕ → ℚ) :
    ∀ (legs : List (Point × Point)) (off : ℕ),
      (∀ i, off ≤ i → i < off + 2 * mpl * legs.length → d1 i = d2 i) →
      genLegs mpl d1 legs off = genLegs mpl d2 legs off
  | [], _, _ => rfl
  | (s, e) :: rest, off, h => by
      have hsplit : 2 * mpl * ((s, e) :: rest).length =
          2 * mpl + 2 * mpl * rest.length := by
        simp [List.length_cons]
        ring
      have hleg : interpolate_leg s e mpl (fun i => d1 (off + i)) =
          interpolate_leg s e mpl (fun i => d2 (off + i)) := by
        refine mapO_congr _ _ _ (fun i hi => ?_)
        have hi' : i < mpl := List.mem_range.mp hi
        have h1 : d1 (off + 2 * i) = d2 (off + 2 * i) := h _ (by omega) (by omega)
        have h2 : d1 (off + (2 * i + 1)) = d2 (off + (2 * i + 1)) :=
          h _ (by omega) (by omega)
        simp [h1, h2]
      have hrest : genLegs mpl d1 rest (off + 2 * mpl) =
          genLegs mpl d2 rest (off + 2 * mpl) :=
        genLegs_congr mpl d1 d2 rest (off + 2 * mpl)
          (fun i h1 h2 => h i (by omega) (by omega))
      simp [genLegs, hleg, hrest]

/-- Claim C3 (counterexample): with the two-point sequence
`[(0,0), (1,1)]` and one positive total transit minute, the single leg gets
`minutes_per_leg = 1 // 1 = 1` step, and `interpolate_leg` evaluates
`frac = 0 / (1 - 1)`, raising `ZeroDivisionError` (modelled by `none`):
route generation does not terminate without error. -/
theorem generate_transit_route_one_minute_raises :
    generate_transit_route [((0 : ℚ), 0), (1, 1)] 1 driftZero = none := by
  rfl

/-- Claim C3 (amended): for every waypoint sequence of at least two points and
every total transit minutes that gives each leg at least two per-minute
steps (`total_minutes // num_legs ≥ 2`), route generation succeeds and
emits exactly `total_minutes // num_legs ≥ 1` records per consecutive leg,
`num_legs * (total_minutes // num_legs)` in all. -/
theorem generate_transit_route_total_of_two_per_leg (points : List Point)
    (total : ℕ) (drift : ℕ → ℚ) (h1 : 2 ≤ points.length)
    (h2 : 2 ≤ total / (points.length - 1)) :
    (generate_transit_route points total drift).map List.length =
      some ((points.length - 1) * (total / (points.length - 1))) := by
  have hzip : (points.zip points.tail).length = points.length - 1 := by
    rw [List.length_zip, List.length_tail]
    omega
  have hne : points.length - 1 ≠ 0 := by omega
  have := genLegs_length (total / (points.length - 1)) drift h2
    (points.zip points.tail) 0
  simpa [generate_transit_route, ndiv, hzip, hne] using this

/-- Claim C3 (witness): the amended claim at the concrete two-point sequence
`[(0,0), (1,1)]` with two total minutes: one leg of two records. -/
theorem generate_transit_route_total_of_two_per_leg_witness :
    2 ≤ ([((0 : ℚ), 0), (1, 1)] : List Point).length ∧
    2 ≤ 2 / (([((0 : ℚ), 0), (1, 1)] : List Point).length - 1) ∧
    (generate_transit_route [((0 : ℚ), 0), (1, 1)] 2 driftZero).map List.length =
      some 2 :=
  ⟨by decide, by decide, by
    simpa using generate_transit_route_total_of_two_per_leg
      [((0 : ℚ), 0), (1, 1)] 2 driftZero (by decide) (by decide)⟩

/-- Claim C4 (counterexample): with leg start `(0,0)`, leg end `(1,1)`, two
steps and every drift draw equal to `1`, the emitted leg is
`[(1,1), (2,2)]`: its first coordinate is not the leg start (and its last
is not the leg end) — the random drift is added at fractions 0 and 1 too. -/
theorem interpolate_leg_drift_moves_endpoints :
    (interpolate_leg ((0 : ℚ), 0) (1, 1) 2 driftOne).map legEnds =
      some (some (1, 1), some (2, 2)) ∧
    (some ((1 : ℚ), (1 : ℚ)) : Option Point) ≠ some ((0 : ℚ), (0 : ℚ)) := by
  constructor
  · norm_num [interpolate_leg, mapO, qdiv, driftOne, legEnds, List.range_succ]
  · decide

/-- Claim C4 (amended): for every leg and every step count of at least two
(the successful, non-degenerate case), the first emitted coordinate is the
leg start plus that step's two drift draws (interpolation fraction 0) and
the last is the leg end plus its drift draws (fraction 1): the underlying
interpolation hits the endpoints exactly and only the additive random
drift moves them. -/
theorem interpolate_leg_endpoints (s e : Point) (steps : ℕ) (drift : ℕ → ℚ)
    (h : 2 ≤ steps) :
    (interpolate_leg s e steps drift).map legEnds =
      some (some (s.1 + drift 0, s.2 + drift 1),
            some (e.1 + drift (2 * (steps - 1)), e.2 + drift (2 * (steps - 1) + 1))) := by
  rw [interpolate_leg_eq s e steps drift h]
  have hden : ((steps - 1 : ℕ) : ℚ) ≠ 0 := Nat.cast_ne_zero.mpr (by omega)
  obtain ⟨k, rfl⟩ : ∃ k, steps = k + 2 := ⟨steps - 2, by omega⟩
  simp only [Option.map_some', legEnds, Option.some.injEq, Prod.mk.injEq]
  constructor
  · rw [List.range_succ_eq_map, List.map_cons, List.head?_cons]
    norm_num
  · rw [List.range_succ, List.map_append, List.map_cons, List.map_nil,
      List.getLast?_concat]
    have hne : ((k + 1 : ℕ) : ℚ) ≠ 0 := Nat.cast_ne_zero.mpr (by omega)
    rw [show (k + 2 - 1 : ℕ) = k + 1 from rfl]
    simp only [div_self hne, mul_one, Option.some.injEq, Prod.mk.injEq]
    constructor <;> ring

/-- Claim C4 (witness): the amended claim at leg `(3,4) → (7,9)` with two
steps and zero drift: the leg runs exactly from `(3,4)` to `(7,9)`. -/
theorem interpolate_leg_endpoints_witness :
    2 ≤ 2 ∧
    (interpolate_leg ((3 : ℚ), 4) (7, 9) 2 driftZero).map legEnds =
      some (some (3, 4), some (7, 9)) :=
  ⟨by decide, by
    simpa [driftZero] using
      interpolate_leg_endpoints ((3 : ℚ), 4) (7, 9) 2 driftZero (by decide)⟩

/-- Claim C5 (counterexample): two runs of the route generator on identical
declared inputs (same two waypoints, same duration) but different values of
the hidden `random.uniform` drift draws produce different coordinate
sequences — the generator reads the global random state, so identical
inputs do not imply identical outputs. -/
theorem generate_transit_route_rng_dependent :
    generate_transit_route [((0 : ℚ), 0), (1, 1)] 2 driftZero =
      some [(0, 0), (1, 1)] ∧
    generate_transit_route [((0 : ℚ), 0), (1, 1)] 2 driftOne =
      some [(1, 1), (2, 2)] ∧
    ([((0 : ℚ), (0 : ℚ)), ((1 : ℚ), (1 : ℚ))] : List Point) ≠ [(1, 1), (2, 2)] := by
  refine ⟨?_, ?_, by decide⟩
  · norm_num [generate_transit_route, genLegs, interpolate_leg, mapO, qdiv,
      ndiv, driftZero, List.range_succ]
  · norm_num [generate_transit_route, genLegs, interpolate_leg, mapO, qdiv,
      ndiv, driftOne, List.range_succ]

/-- Claim C5 (amended): route generation is deterministic once the random
drift draws are fixed: two runs with identical inputs whose drift streams
agree on the (at most `2 * total_minutes`) draws the generator consumes
produce identical outputs.  All output variation comes from the random
draws, none from any other hidden state. -/
theorem generate_transit_route_deterministic (points : List Point) (total : ℕ)
    (d1 d2 : ℕ → ℚ) (h : ∀ i, i < 2 * total → d1 i = d2 i) :
    generate_transit_route points total d1 = generate_transit_route points total d2 := by
  unfold generate_transit_route
  cases hdiv : ndiv total (points.zip points.tail).length with
  | none => simp only [hdiv, Option.bind_eq_bind, Option.none_bind]
  | some mpl =>
      have hL : (points.zip points.tail).length ≠ 0 := by
        intro hzero
        simp [ndiv, hzero] at hdiv
      have hmv : mpl = total / (points.zip points.tail).length := by
        unfold ndiv at hdiv
        rw [if_neg hL] at hdiv
        injection hdiv with h'
        exact h'.symm
      have hmpl2 : 2 * mpl * (points.zip points.tail).length ≤ 2 * total := by
        have h1 : mpl * (points.zip points.tail).length ≤ total := by
          rw [hmv]
          exact Nat.div_mul_le_self total _
        calc 2 * mpl * (points.zip points.tail).length
            = 2 * (mpl * (points.zip points.tail).length) := by ring
          _ ≤ 2 * total := by omega
      have hcong := genLegs_congr mpl d1 d2 (points.zip points.tail) 0
        (fun i _ hi => h i (by omega))
      simp only [hdiv, Option.bind_eq_bind, Option.some_bind, hcong]

/-- Claim C5 (witness): the amended claim at the two-point sequence with two
total minutes: `driftZeroThen5` agrees with `driftZero` on the four
consumed draws, and the outputs coincide. -/
theorem generate_transit_route_deterministic_witness :
    generate_transit_route [((0 : ℚ), 0), (1, 1)] 2 driftZero =
      generate_transit_route [((0 : ℚ), 0), (1, 1)] 2 driftZeroThen5 :=
  generate_transit_route_deterministic [((0 : ℚ), 0), (1, 1)] 2 driftZero
    driftZeroThen5 (by decide)

lemma rowsGo_length (mk : ℕ → Point → Row) :
    ∀ (i0 : ℕ) (cs : List Point), (rowsGo mk i0 cs).length = cs.length
  | _, [] => rfl
  | i0, _ :: cs => by simp [rowsGo, rowsGo_length mk (i0 + 1) cs]

lemma rowsGo_get?_time {mk : ℕ → Point → Row} {t0 : ℕ}
    (hmk : ∀ i c, (mk i c).time = t0 + i) :
    ∀ (cs : List Point) (i0 j : ℕ) (r : Row),
      (rowsGo mk i0 cs).get? j = some r → r.time = t0 + i0 + j
  | [], _, _, _, h => by simp [rowsGo] at h
  | c :: cs, i0, 0, r, h => by
      simp only [rowsGo, List.get?_cons_zero, Option.some.injEq] at h
      rw [← h, hmk]
      omega
  | c :: cs, i0, j + 1, r, h => by
      simp only [rowsGo, List.get?_cons_succ] at h
      have := rowsGo_get?_time hmk cs (i0 + 1) j r h
      omega

lemma rowsGo_mem {mk : ℕ → Point → Row} :
    ∀ {i0 : ℕ} {cs : List Point} {r : Row},
      r ∈ rowsGo mk i0 cs → ∃ i c, r = mk i c
  | _, [], _, h => by simp [rowsGo] at h
  | i0, c :: cs, r, h => by
      rcases List.mem_cons.mp h with h' | h'
      · exact ⟨i0, c, h'⟩
      · exact rowsGo_mem h'

lemma assembleRows_get?_time (tc oc rc : List Point) (gs : GenStreams)
    (j : ℕ) (r : Row) (h : (assembleRows tc oc rc gs).get? j = some r) :
    r.time = START_MIN + j := by
  unfold assembleRows at h
  by_cases h1 : j < tc.length
  · rw [List.get?_append (by
      rw [List.length_append, rowsGo_length, rowsGo_length]; omega)] at h
    rw [List.get?_append (by rw [rowsGo_length]; omega)] at h
    exact rowsGo_get?_time (fun _ _ => rfl) tc 0 j r h
  · by_cases h2 : j < tc.length + oc.length
    · rw [List.get?_append (by
        rw [List.length_append, rowsGo_length, rowsGo_length]; omega)] at h
      rw [List.get?_append_right (by rw [rowsGo_length]; omega)] at h
      rw [rowsGo_length] at h
      have := rowsGo_get?_time (fun _ _ => rfl) oc 0 (j - tc.length) r h
      omega
    · rw [List.get?_append_right (by
        rw [List.length_append, rowsGo_length, rowsGo_length]; omega)] at h
      rw [List.length_append, rowsGo_length, rowsGo_length] at h
      have := rowsGo_get?_time (fun _ _ => rfl) rc 0 (j - (tc.length + oc.length))
        r h
      omega

lemma roundTo_mul_den (q : ℚ) (n : ℕ) : (roundTo q n * 10 ^ n).den = 1 := by
  unfold roundTo
  rw [div_mul_cancel₀ _ (by positivity : (10 : ℚ) ^ n ≠ 0)]
  exact Rat.den_intCast _

lemma roundTo5_den (q : ℚ) : (roundTo q 5 * 100000).den = 1 := by
  have h : (100000 : ℚ) = 10 ^ 5 := by norm_num
  rw [h]
  exact roundTo_mul_den q 5

lemma roundTo2_den (q : ℚ) : (roundTo q 2 * 100).den = 1 := by
  have h : (100 : ℚ) = 10 ^ 2 := by norm_num
  rw [h]
  exact roundTo_mul_den q 2

/-- Claim C7: in every assembled trajectory the time cursor of consecutive
records increases by exactly one minute per record, across the outbound
transit, on-site and return transit phases (`Row.time` is the cursor in
minutes; the stored string is `isoformat` of it). -/
theorem rows_time_one_minute_apart (tc oc rc : List Point) (gs : GenStreams)
    (i : ℕ) (h : i + 1 < (assembleRows tc oc rc gs).length) :
    ((assembleRows tc oc rc gs).get ⟨i + 1, h⟩).time =
      ((assembleRows tc oc rc gs).get ⟨i, Nat.lt_of_succ_lt h⟩).time + 1 := by
  have e1 := assembleRows_get?_time tc oc rc gs (i + 1)
    ((assembleRows tc oc rc gs).get ⟨i + 1, h⟩) (List.get?_eq_get h)
  have e0 := assembleRows_get?_time tc oc rc gs i
    ((assembleRows tc oc rc gs).get ⟨i, Nat.lt_of_succ_lt h⟩)
    (List.get?_eq_get (Nat.lt_of_succ_lt h))
  omega

/-- Claim C7 (witness): in the concrete three-row trajectory with one
coordinate per phase, the second and third rows are one minute apart. -/
theorem rows_time_one_minute_apart_witness :
    ((assembleRows [((1 : ℚ), 2)] [(3, 4)] [(5, 6)] gsZero).get
        ⟨2, by decide⟩).time =
      ((assembleRows [((1 : ℚ), 2)] [(3, 4)] [(5, 6)] gsZero).get
        ⟨1, by decide⟩).time + 1 :=
  rows_time_one_minute_apart [((1 : ℚ), 2)] [(3, 4)] [(5, 6)] gsZero 1 (by decide)

/-- Claim C8: every emitted trajectory record has a timestamp string ending
in `"Z"`, latitude and longitude rounded to 5 decimal places (multiplying
by `10^5` gives an integer) and speed rounded to 2 decimal places
(multiplying by `10^2` gives an integer). -/
theorem rows_record_format (tc oc rc : List Point) (gs : GenStreams) (r : Row)
    (h : r ∈ assembleRows tc oc rc gs) :
    r.timestampStr.data.getLast? = some 'Z' ∧
    (r.lat * 100000).den = 1 ∧ (r.lon * 100000).den = 1 ∧
    (r.speed * 100).den = 1 := by
  have hz : ∀ s : Row, s.timestampStr.data.getLast? = some 'Z' := by
    intro s
    unfold Row.timestampStr
    rw [String.data_append]
    exact List.getLast?_concat _
  have key : ∀ s : Row,
      (∃ i c, s = transitRow "Outbound Transit" gs.spdOut gs.crsOut gs.dltOut
        START_MIN i c) ∨
      (∃ i c, s = onsiteRow gs.ph gs.sS gs.sP gs.sW gs.crsOn gs.dltOn
        (START_MIN + tc.length) i c) ∨
      (∃ i c, s = transitRow "Return Transit" gs.spdRet gs.crsRet gs.dltRet
        (START_MIN + tc.length + oc.length) i c) →
      (s.lat * 100000).den = 1 ∧ (s.lon * 100000).den = 1 ∧
        (s.speed * 100).den = 1 := by
    rintro s (⟨i, c, rfl⟩ | ⟨i, c, rfl⟩ | ⟨i, c, rfl⟩) <;>
      exact ⟨roundTo5_den _, roundTo5_den _, roundTo2_den _⟩
  unfold assembleRows at h
  rcases List.mem_append.mp h with h' | h'
  · rcases List.mem_append.mp h' with h'' | h''
    · obtain ⟨i, c, rfl⟩ := rowsGo_mem h''
      exact ⟨hz _, key _ (Or.inl ⟨i, c, rfl⟩)⟩
    · obtain ⟨i, c, rfl⟩ := rowsGo_mem h''
      exact ⟨hz _, key _ (Or.inr (Or.inl ⟨i, c, rfl⟩))⟩
  · obtain ⟨i, c, rfl⟩ := rowsGo_mem h'
    exact ⟨hz _, key _ (Or.inr (Or.inr ⟨i, c, rfl⟩))⟩

/-- Claim C8 (witness): the format properties of the first outbound record of
the concrete three-row trajectory. -/
theorem rows_record_format_witness :
    rowW ∈ assembleRows [((1 : ℚ), 2)] [(3, 4)] [(5, 6)] gsZero ∧
    (rowW.timestampStr.data.getLast? = some 'Z' ∧
      (rowW.lat * 100000).den = 1 ∧ (rowW.lon * 100000).den = 1 ∧
      (rowW.speed * 100).den = 1) :=
  ⟨List.mem_cons_self _ _, rows_record_format [((1 : ℚ), 2)] [(3, 4)] [(5, 6)]
    gsZero rowW (List.mem_cons_self _ _)⟩

open Real in
lemma hv_pole (lon1 lon2 : ℝ) : haversine_km 90 lon1 90 lon2 = 0 := by
  have hc : Real.cos (90 * π / 180) = 0 := by
    rw [show (90 : ℝ) * π / 180 = π / 2 by ring]
    exact Real.cos_pi_div_two
  unfold haversine_km radians atan2
  norm_num [hc]

open Real in
lemma hv_north : haversine_km (90 + 5 / 111) 0 90 0 = 6371 * (5 * π / 19980) := by
  have ht0 : (0 : ℝ) < 5 * π / 39960 := by positivity
  have htl : (5 : ℝ) * π / 39960 < π / 2 := by nlinarith [pi_pos]
  have hsnn : 0 ≤ Real.sin (5 * π / 39960) :=
    Real.sin_nonneg_of_nonneg_of_le_pi (le_of_lt ht0) (by nlinarith [pi_pos])
  have hcos : 0 < Real.cos (5 * π / 39960) :=
    Real.cos_pos_of_mem_Ioo ⟨by nlinarith [pi_pos], htl⟩
  have habs : |Real.sin (-(5 * π / 39960))| < 1 := by
    rw [Real.sin_neg, abs_neg, abs_of_nonneg hsnn]
    calc Real.sin (5 * π / 39960) < 5 * π / 39960 := Real.sin_lt ht0
    _ < 1 := by nlinarith [pi_lt_315]
  unfold haversine_km radians atan2
  norm_num
  rw [show (-(5 / 111 * π) / 180 / 2 : ℝ) = -(5 * π / 39960) by ring]
  rw [if_pos habs]
  rw [Real.sin_neg, neg_sq, Real.sqrt_sq hsnn, ← Real.cos_sq',
    Real.sqrt_sq hcos.le, ← Real.tan_eq_sin_div_cos,
    Real.arctan_tan (by nlinarith [pi_pos]) htl]
  ring

open Real in
lemma one_le_hv_north : 1 ≤ haversine_km (90 + 5 / 111) 0 90 0 := by
  rw [hv_north]
  nlinarith [pi_gt_three]

lemma dummyGo_forall (rigLat rigLon : ℝ) (st : ℕ → ℝ × ℝ) :
    ∀ (k i : ℕ),
      List.Forall (farFromRig rigLat rigLon) (onsiteDummyGo rigLat rigLon st i k)
  | 0, _ => trivial
  | k + 1, i => by
      unfold onsiteDummyGo
      dsimp only
      split_ifs with h
      · exact dummyGo_forall rigLat rigLon st k (i + 1)
      · rw [List.forall_cons]
        exact ⟨not_lt.mp h, dummyGo_forall rigLat rigLon st k (i + 1)⟩

lemma appGo_forall (rigLat rigLon : ℝ) (st : ℕ → ℝ × ℝ) :
    ∀ (fuel i need : ℕ),
      List.Forall (farFromRig rigLat rigLon) (onsiteAppGo rigLat rigLon st fuel i need)
  | 0, _, _ => trivial
  | _ + 1, _, 0 => trivial
  | fuel + 1, i, need + 1 => by
      unfold onsiteAppGo
      dsimp only
      split_ifs with h
      · exact appGo_forall rigLat rigLon st fuel (i + 1) (need + 1)
      · rw [List.forall_cons]
        exact ⟨not_lt.mp h, appGo_forall rigLat rigLon st fuel (i + 1) need⟩

/-- Claim C9: every coordinate either `onsite_movement_safe` implementation
returns (the `for`-loop version of `Dummy_Data.py` and the `while`-loop
version of `app.py`, any fuel) lies at haversine distance at least 1 km
from the rig: the 1 km exclusion zone is never violated, because a
candidate with `haversine_km(...) < 1` is skipped and never appended. -/
theorem onsite_movement_safe_exclusion (rigLat rigLon : ℝ) (st : ℕ → ℝ × ℝ)
    (steps fuel : ℕ) :
    List.Forall (farFromRig rigLat rigLon)
      (onsite_movement_safe_dummy rigLat rigLon steps st) ∧
    List.Forall (farFromRig rigLat rigLon)
      (onsite_movement_safe_app fuel rigLat rigLon steps st) :=
  ⟨dummyGo_forall rigLat rigLon st steps 0, appGo_forall rigLat rigLon st fuel 0 steps⟩

open Real in
lemma haversine_antipodal : haversine_km 0 0 0 180 = 6371 * π := by
  unfold haversine_km radians atan2
  norm_num
  ring

open Real in
/-- Claim C6 (counterexample): between the equator points `(0, 0)` and
`(0, 180)` the great-circle distance in nautical miles is `180 * 60 =
10800` (one nautical mile per arc minute), but `haversine_km` returns
`6371 * π ≈ 20015` — the function computes kilometres (`R = 6371`), not
nautical miles. -/
theorem haversine_not_nautical_miles : haversine_km 0 0 0 180 ≠ 180 * 60 := by
  rw [haversine_antipodal]
  intro h
  have hq : π = ((10800 / 6371 : ℚ) : ℝ) := by
    push_cast
    linarith
  exact absurd ⟨(10800 / 6371 : ℚ), hq.symm⟩ irrational_pi

open Real in
/-- Claim C6 (amended): the great-circle distance the program computes
(`haversine_km`, used for leg lengths) is expressed in kilometres, with
Earth radius `R = 6371` km: between the antipodal equator points it returns
the half-circumference `6371 * π` km. -/
theorem haversine_in_kilometres : haversine_km 0 0 0 180 = 6371 * π := by
  unfold haversine_km radians atan2
  norm_num
  ring

lemma stPole_point0 : onsitePoint 90 0 stPole 0 = (90, 5 / 111) := by
  unfold onsitePoint stPole
  norm_num

lemma stPole_point1 : onsitePoint 90 0 stPole 1 = (90 + 5 / 111, 0) := by
  unfold onsitePoint stPole
  norm_num

lemma stGood_point (i : ℕ) : onsitePoint 90 0 stGood i = (90 + 5 / 111, 0) := by
  unfold onsitePoint stGood
  norm_num

/-- Claim C10 (counterexample): at rig `(90, 0)` with one requested step and
the draw stream `stPole`, the first candidate lands inside the 1 km
exclusion zone, so the `for`-loop version (`Dummy_Data.py`) skips it and
returns 0 records, while the `while`-loop version (`app.py`) retries and
returns exactly 1: the two implementations do not return lists of the same
length. -/
theorem onsite_versions_length_differ :
    (onsite_movement_safe_dummy 90 0 1 stPole).length = 0 ∧
    (onsite_movement_safe_app 2 90 0 1 stPole).length = 1 ∧ (0 : ℕ) ≠ 1 := by
  have hbad : haversine_km (onsitePoint 90 0 stPole 0).1
      (onsitePoint 90 0 stPole 0).2 90 0 < 1 := by
    rw [stPole_point0]
    show haversine_km 90 (5 / 111) 90 0 < 1
    rw [hv_pole]
    norm_num
  have hgood : ¬ haversine_km (onsitePoint 90 0 stPole 1).1
      (onsitePoint 90 0 stPole 1).2 90 0 < 1 := by
    rw [stPole_point1]
    exact not_lt.mpr one_le_hv_north
  have hd : onsite_movement_safe_dummy 90 0 1 stPole = [] := by
    unfold onsite_movement_safe_dummy onsiteDummyGo
    dsimp only
    rw [if_pos hbad]
    rfl
  have ha : onsite_movement_safe_app 2 90 0 1 stPole =
      [onsitePoint 90 0 stPole 1] := by
    unfold onsite_movement_safe_app onsiteAppGo
    dsimp only
    rw [if_pos hbad]
    unfold onsiteAppGo
    dsimp only
    rw [if_neg hgood]
    rfl
  rw [hd, ha]
  exact ⟨rfl, rfl, by omega⟩

lemma onsiteGo_agree (rigLat rigLon : ℝ) (st : ℕ → ℝ × ℝ) :
    ∀ (n i : ℕ),
      List.Forall (farFromRig rigLat rigLon) (onsiteCandidates rigLat rigLon st i n) →
      onsiteDummyGo rigLat rigLon st i n = onsiteAppGo rigLat rigLon st n i n ∧
      (onsiteDummyGo rigLat rigLon st i n).length = n
  | 0, i, _ => ⟨rfl, rfl⟩
  | n + 1, i, h => by
      unfold onsiteCandidates at h
      rw [List.forall_cons] at h
      obtain ⟨h1, h2⟩ := h
      have hnot : ¬ haversine_km (onsitePoint rigLat rigLon st i).1
          (onsitePoint rigLat rigLon st i).2 rigLat rigLon < 1 := not_lt.mpr h1
      obtain ⟨he, hl⟩ := onsiteGo_agree rigLat rigLon st n (i + 1) h2
      constructor
      · unfold onsiteDummyGo onsiteAppGo
        dsimp only
        rw [if_neg hnot, if_neg hnot, he]
      · unfold onsiteDummyGo
        dsimp only
        rw [if_neg hnot]
        simp [hl]

/-- Claim C10 (amended): the two `onsite_movement_safe` implementations agree
— returning the same list, of length exactly `steps` — whenever every
candidate point the draws generate lies at least 1 km from the rig (which
holds for all draws within the coded 5–7 km radius band at the real rig
latitude, where no candidate is ever rejected); when a candidate is
rejected, the `for`-loop version emits fewer than `steps` records while
the `while`-loop version retries. -/
theorem onsite_versions_agree (rigLat rigLon : ℝ) (st : ℕ → ℝ × ℝ) (steps : ℕ)
    (h : List.Forall (farFromRig rigLat rigLon)
      (onsiteCandidates rigLat rigLon st 0 steps)) :
    onsite_movement_safe_dummy rigLat rigLon steps st =
      onsite_movement_safe_app steps rigLat rigLon steps st ∧
    (onsite_movement_safe_dummy rigLat rigLon steps st).length = steps :=
  onsiteGo_agree rigLat rigLon st steps 0 h

/-- Claim C10 (witness): the amended claim at rig `(90, 0)` with one step and
the always-accepted stream `stGood`. -/
theorem onsite_versions_agree_witness :
    List.Forall (farFromRig 90 0) (onsiteCandidates 90 0 stGood 0 1) ∧
    (onsite_movement_safe_dummy 90 0 1 stGood =
        onsite_movement_safe_app 1 90 0 1 stGood ∧
      (onsite_movement_safe_dummy 90 0 1 stGood).length = 1) := by
  have hf : List.Forall (farFromRig 90 0) (onsiteCandidates 90 0 stGood 0 1) := by
    show farFromRig 90 0 (onsitePoint 90 0 stGood 0)
    rw [stGood_point]
    exact one_le_hv_north
  exact ⟨hf, onsite_versions_agree 90 0 stGood 1 hf⟩

lemma pickMin_mem :
    ∀ {l : List Entry} {e : Entry} {rest : List Entry},
      pickMin l = some (e, rest) → e ∈ l ∧ ∀ x ∈ rest, x ∈ l
  | [], _, _, h => by simp [pickMin] at h
  | a :: as, e, rest, h => by
      unfold pickMin at h
      cases hp : pickMin as with
      | none =>
          rw [hp] at h
          dsimp only at h
          injection h with h'
          obtain ⟨h1, h2⟩ := Prod.mk.injEq .. ▸ h'
          simp only [Prod.mk.injEq] at h'
          refine ⟨by simp [h'.1.symm], ?_⟩
          intro x hx
          rw [← h'.2] at hx
          simp at hx
      | some mr =>
          obtain ⟨m, r⟩ := mr
          rw [hp] at h
          dsimp only at h
          obtain ⟨hm, hr⟩ := pickMin_mem hp
          by_cases hd : a.dist ≤ m.dist
          · rw [if_pos hd] at h
            injection h with h'
            simp only [Prod.mk.injEq] at h'
            refine ⟨by simp [h'.1.symm], ?_⟩
            intro x hx
            rw [← h'.2] at hx
            exact List.mem_cons_of_mem a hx
          · rw [if_neg hd] at h
            injection h with h'
            simp only [Prod.mk.injEq] at h'
            refine ⟨List.mem_cons_of_mem a (h'.1 ▸ hm), ?_⟩
            intro x hx
            rw [← h'.2] at hx
            rcases List.mem_cons.mp hx with h'' | h''
            · simp [h'']
            · exact List.mem_cons_of_mem a (hr x h'')

lemma solveGo_ok (nodes : List Point) (crosses : Point → Point → Bool)
    (w : Point → Point → ℚ) (goal start : Point) :
    ∀ (fuel : ℕ) (frontier : List Entry) (visited : List Point) (p : List Point),
      (∀ e ∈ frontier, EntryInv nodes crosses start e) →
      solveGo nodes crosses w goal fuel frontier visited = .ok p →
      List.Chain' (segClear crosses) p ∧ Reach nodes crosses start goal
  | 0, _, _, _, _, h => by simp [solveGo] at h
  | fuel + 1, frontier, visited, p, hinv, h => by
      unfold solveGo at h
      cases hpm : pickMin frontier with
      | none => rw [hpm] at h; exact absurd h (by simp)
      | some er =>
          obtain ⟨e, rest⟩ := er
          rw [hpm] at h
          dsimp only at h
          obtain ⟨he, hrest⟩ := pickMin_mem hpm
          have heinv := hinv e he
          by_cases hg : e.node = goal
          · rw [if_pos hg] at h
            injection h with h'
            obtain ⟨hn, hhd, hlast, hchain, hreach⟩ := heinv
            subst h'
            constructor
            · rw [List.chain'_reverse]
              refine hchain.imp ?_
              intro a b hab
              exact hab.2.2
            · exact hg ▸ hreach
          · rw [if_neg hg] at h
            by_cases hv : e.node ∈ visited
            · rw [if_pos hv] at h
              exact solveGo_ok nodes crosses w goal start fuel rest visited p
                (fun x hx => hinv x (hrest x hx)) h
            · rw [if_neg hv] at h
              refine solveGo_ok nodes crosses w goal start fuel _ _ p ?_ h
              intro x hx
              rcases List.mem_append.mp hx with hx' | hx'
              · exact hinv x (hrest x hx')
              · obtain ⟨q, hq, rfl⟩ := List.mem_map.mp hx'
                have hq' := List.mem_filter.mp hq
                obtain ⟨hqn, hqc⟩ := hq'
                have hqne : q ≠ e.node := by
                  have := (Bool.and_eq_true _ _).mp hqc |>.1
                  simpa using this
                have hqcross : crosses e.node q = false := by
                  have := (Bool.and_eq_true _ _).mp hqc |>.2
                  simpa using this
                obtain ⟨hn, hhd, hlast, hchain, hreach⟩ := heinv
                have hpne : e.path ≠ [] := by
                  intro hnil
                  rw [hnil] at hhd
                  simp at hhd
                refine ⟨hqn, rfl, ?_, ?_, ?_⟩
                · exact List.mem_getLast?_cons hlast
                · rw [List.chain'_cons']
                  refine ⟨?_, hchain⟩
                  intro b hb
                  rw [hhd] at hb
                  injection hb with hb'
                  subst hb'
                  exact ⟨hn, hqne, hqcross⟩
                · exact Reach.step hreach hqn hqne hqcross

lemma not_reach_of_crossesAlways (nodes : List Point) (start p : Point)
    (hne : p ≠ start) : ¬ Reach nodes crossesAlways start p := by
  intro h
  cases h with
  | refl => exact hne rfl
  | step hr hmem hne' hcross => simp [crossesAlways] at hcross

/-- Claim C1: for every routing request for which the spec-modelled planner
returns a path, consecutive points of the returned path are joined by
segments that do not cross land (do not intersect any land polygon's
interior or boundary), because the visibility graph only ever contains
land-free edges and the solver only walks graph edges. -/
theorem planner_path_avoids_land (gridPts : List Point) (start goal : Point)
    (crosses : Point → Point → Bool) (w : Point → Point → ℚ)
    (path : List Point)
    (h : shortest_path gridPts start goal crosses w = .ok path) :
    List.Chain' (segClear crosses) path := by
  have hinit : ∀ e ∈ [(⟨start, 0, [start]⟩ : Entry)],
      EntryInv (start :: goal :: gridPts) crosses start e := by
    intro e he
    simp only [List.mem_singleton] at he
    subst he
    exact ⟨List.mem_cons_self _ _, rfl, rfl, List.chain'_singleton _, Reach.refl⟩
  unfold shortest_path at h
  exact (solveGo_ok (start :: goal :: gridPts) crosses w goal start _ _ _ path
    hinit h).1

/-- Claim C1 (witness): the planner succeeds on open water between `(0,0)`
and `(1,0)` with an empty grid, and the returned direct path is land-free. -/
theorem planner_path_avoids_land_witness :
    shortest_path [] ((0 : ℚ), 0) (1, 0) crossesNever wOne =
      Except.ok [((0 : ℚ), (0 : ℚ)), ((1 : ℚ), (0 : ℚ))] ∧
    List.Chain' (segClear crossesNever) [((0 : ℚ), (0 : ℚ)), ((1 : ℚ), (0 : ℚ))] :=
  ⟨by decide, planner_path_avoids_land [] ((0 : ℚ), 0) (1, 0) crossesNever wOne
    [((0 : ℚ), (0 : ℚ)), ((1 : ℚ), (0 : ℚ))] (by decide)⟩

/-- Claim C2: whenever start and end are not connected in the visibility
graph (no chain of land-free segments between graph nodes joins them), the
spec-modelled solver returns the explicit `NoPathFound` error value — it
neither crashes (it is a total function into `Except`) nor returns a path. -/
theorem planner_reports_NoPathFound (gridPts : List Point) (start goal : Point)
    (crosses : Point → Point → Bool) (w : Point → Point → ℚ)
    (h : ¬ Reach (start :: goal :: gridPts) crosses start goal) :
    shortest_path gridPts start goal crosses w = .error RouteError.NoPathFound := by
  cases hres : shortest_path gridPts start goal crosses w with
  | error e => cases e with | NoPathFound => rfl
  | ok p =>
      exfalso
      apply h
      have hinit : ∀ e ∈ [(⟨start, 0, [start]⟩ : Entry)],
          EntryInv (start :: goal :: gridPts) crosses start e := by
        intro e he
        simp only [List.mem_singleton] at he
        subst he
        exact ⟨List.mem_cons_self _ _, rfl, rfl, List.chain'_singleton _, Reach.refl⟩
      unfold shortest_path at hres
      exact (solveGo_ok (start :: goal :: gridPts) crosses w goal start _ _ _ p
        hinit hres).2

/-- Claim C2 (witness): with every segment crossing land, `(1,0)` is not
reachable from `(0,0)` and the solver reports `NoPathFound`. -/
theorem planner_reports_NoPathFound_witness :
    shortest_path [] ((0 : ℚ), 0) (1, 0) crossesAlways wOne =
      Except.error RouteError.NoPathFound :=
  planner_reports_NoPathFound [] ((0 : ℚ), 0) (1, 0) crossesAlways wOne
    (not_reach_of_crossesAlways _ _ _ (by decide))

end Voyage
